import Mathlib

/-
Verification of the vigil-guard-exam proctoring core against its source.

The embedding below translates the logic of:
  * src/src/components/ExamInterface.tsx  (exam session state machine,
    timer, navigation, answer map, violation log, submit),
  * src/unnamed/part_002                   (ProctorCamera: face detection
    tick, gaze analysis, per-kind emission),
  * src/unnamed/part_004                   (AudioMonitor: loudness
    normalization and the suspicious-audio threshold).

Machine numbers in the source are JavaScript doubles; the divisions that
can leave the finite range (left/right eye width quotient, average of an
empty byte array) are modelled explicitly with the JsNum type below.
All other arithmetic is on small exact values, modelled with ℚ.
-/

namespace VigilGuard

/-- JavaScript number resulting from a division: a finite value, a signed
infinity, or NaN.  Only divisions can leave the finite range in the code
under study, so the other arithmetic stays in ℚ. -/
inductive JsNum where
  | finite (q : ℚ)
  | posInf
  | negInf
  | nan
deriving DecidableEq

/-- JavaScript division semantics on exact operands: `b = 0` gives NaN when
`a = 0` and a signed infinity otherwise; other cases are exact. -/
def jsDiv (a b : ℚ) : JsNum :=
  if b = 0 then
    (if a = 0 then .nan else if 0 < a then .posInf else .negInf)
  else .finite (a / b)

/-- JavaScript `x > c` for `x` a division result: NaN compares false,
`+Infinity > c` is true. -/
def jsGt (x : JsNum) (c : ℚ) : Bool :=
  match x with
  | .finite q => decide (c < q)
  | .posInf => true
  | .negInf => false
  | .nan => false

/-- JavaScript `x < c` for `x` a division result: NaN compares false,
`-Infinity < c` is true. -/
def jsLt (x : JsNum) (c : ℚ) : Bool :=
  match x with
  | .finite q => decide (q < c)
  | .posInf => false
  | .negInf => true
  | .nan => false

/-- `Math.abs` on an exact value. -/
def ratAbs (q : ℚ) : ℚ := if q < 0 then -q else q

@[simp] theorem jsGt_finite (q c : ℚ) : jsGt (.finite q) c = decide (c < q) := rfl

@[simp] theorem jsGt_posInf (c : ℚ) : jsGt .posInf c = true := rfl

@[simp] theorem jsGt_nan (c : ℚ) : jsGt .nan c = false := rfl

@[simp] theorem jsLt_finite (q c : ℚ) : jsLt (.finite q) c = decide (q < c) := rfl

@[simp] theorem jsLt_posInf (c : ℚ) : jsLt .posInf c = false := rfl

@[simp] theorem jsLt_nan (c : ℚ) : jsLt .nan c = false := rfl

theorem jsDiv_of_ne_zero (a b : ℚ) (h : b ≠ 0) : jsDiv a b = .finite (a / b) := by
  simp [jsDiv, h]

theorem jsDiv_pos_zero (a : ℚ) (h : 0 < a) : jsDiv a 0 = .posInf := by
  simp [jsDiv, h, ne_of_gt h]

theorem jsDiv_zero_zero : jsDiv 0 0 = .nan := by
  simp [jsDiv]

theorem ratAbs_nonneg (q : ℚ) : 0 ≤ ratAbs q := by
  unfold ratAbs
  by_cases h : q < 0
  · rw [if_pos h]; linarith
  · rw [if_neg h]; exact le_of_not_lt h

theorem ratAbs_of_nonneg (q : ℚ) (h : 0 ≤ q) : ratAbs q = q := by
  unfold ratAbs
  rw [if_neg (not_lt.mpr h)]

/-! ### Vision analyzer (ProctorCamera, src/unnamed/part_002) -/

/-- The two eye point lists of a `faceapi.FaceLandmarks68` value, as
returned by `landmarks.getLeftEye()` / `landmarks.getRightEye()`; in the
library each list has six `(x, y)` points. -/
structure FaceLandmarks68 where
  leftEye : List (ℚ × ℚ)
  rightEye : List (ℚ × ℚ)
deriving DecidableEq

/-- One detection returned by `detectAllFaces(...).withFaceLandmarks()`:
its landmarks and the detection score. -/
structure Face where
  landmarks : FaceLandmarks68
  score : ℚ
deriving DecidableEq

/-- Gaze direction computed by `analyzeGazeDirection`. -/
inductive GazeDirection where
  | left
  | center
  | right
deriving DecidableEq

/-- `leftEyeWidth` / `rightEyeWidth` of part_002 lines 126-127:
`Math.abs(eye[3].x - eye[0].x)`. -/
def eyeWidth (eye : List (ℚ × ℚ)) : ℚ :=
  ratAbs ((eye.getD 3 (0, 0)).1 - (eye.getD 0 (0, 0)).1)

/-- `gazeRatio` of part_002 line 129: `leftEyeWidth / rightEyeWidth`,
a JavaScript division (Infinity/NaN when the right eye width is zero). -/
def gazeRatio (lm : FaceLandmarks68) : JsNum :=
  jsDiv (eyeWidth lm.leftEye) (eyeWidth lm.rightEye)

/-- `analyzeGazeDirection` of part_002 lines 112-135.  The source also
averages the eye point positions into `leftEyeCenter`/`rightEyeCenter`,
but those averages are never read afterwards (dead code), so only the
width quotient and the two threshold tests are modelled. -/
def analyzeGazeDirection (lm : FaceLandmarks68) : GazeDirection :=
  if jsGt (gazeRatio lm) 1.15 then .left
  else if jsLt (gazeRatio lm) 0.85 then .right
  else .center

/-- Violation kinds reported through `onViolation` across the sources. -/
inductive ViolationKind where
  | no_face
  | multiple_faces
  | looking_away (dir : GazeDirection)
  | suspicious_audio
  | camera_error
  | audio_error
  | model_error
deriving DecidableEq

/-- The `FaceDetectionState` React state of part_002 lines 8-14. -/
structure FaceDetectionState where
  faceDetected : Bool
  multipleFaces : Bool
  lookingAway : Bool
  confidence : ℚ
  gazeDirection : Option GazeDirection
deriving DecidableEq

/-- Initial detection state (part_002 lines 28-34): nothing detected yet. -/
def initDetectionState : FaceDetectionState :=
  ⟨false, false, false, 0, none⟩

/-- One iteration of `detectFaces` (part_002 lines 140-206) on the list of
detections returned by the model, producing the next `detectionState` and
the violations passed to `onViolation` during that tick.
  * zero faces: `no_face` is emitted only when the previous state had
    `faceDetected = true`; the state keeps `multipleFaces`/`lookingAway`
    and clears `faceDetected`, `confidence`, `gazeDirection`;
  * more than one face: `multiple_faces` is emitted every tick, the state
    keeps `lookingAway`/`gazeDirection` and records the top score;
  * exactly one face: the gaze is analyzed and `looking_away` is emitted
    on every tick whose direction is not center. -/
def detectFacesTick (st : FaceDetectionState) (detections : List Face) :
    FaceDetectionState × List ViolationKind :=
  match detections with
  | [] =>
      ({ st with faceDetected := false, confidence := 0, gazeDirection := none },
       if st.faceDetected then [.no_face] else [])
  | [d] =>
      let g := analyzeGazeDirection d.landmarks
      let la : Bool := decide (g ≠ .center)
      (⟨true, false, la, d.score, some g⟩,
       if la then [.looking_away g] else [])
  | d :: _ :: _ =>
      ({ st with faceDetected := true, multipleFaces := true, confidence := d.score },
       [.multiple_faces])

/-- Run `detectFaces` over a sequence of per-tick detection lists,
collecting every violation emitted, in order. -/
def runDetection (st : FaceDetectionState) (obs : List (List Face)) :
    FaceDetectionState × List ViolationKind :=
  match obs with
  | [] => (st, [])
  | o :: rest =>
      let r := detectFacesTick st o
      let r2 := runDetection r.1 rest
      (r2.1, r.2 ++ r2.2)

/-- The stateless classification inside `detectFaces` (part_002 lines
149-177), separated from the debouncing/emission: which violation
condition one tick's detections fall under, checked in source order
(zero faces, then more than one, then the single-face gaze rules). -/
def classifyVision (detections : List Face) : Option ViolationKind :=
  match detections with
  | [] => some .no_face
  | [d] =>
      let g := analyzeGazeDirection d.landmarks
      if g = .center then none else some (.looking_away g)
  | _ :: _ :: _ => some .multiple_faces

end VigilGuard

namespace VigilGuard

/-! ### Concrete faces used in the counterexamples and witnesses -/

/-- An eye whose landmark 3 sits at abscissa `w ≥ 0` and whose other
landmarks sit at the origin, so its `eyeWidth` is `w`. -/
def mkEye (w : ℚ) : List (ℚ × ℚ) :=
  [(0, 0), (0, 0), (0, 0), (w, 0), (0, 0), (0, 0)]

/-- A single-face detection whose left and right eye widths are `lw` and
`rw` and whose detection score is `s`. -/
def mkFace (lw rw s : ℚ) : Face := ⟨⟨mkEye lw, mkEye rw⟩, s⟩

theorem eyeWidth_mkEye (w : ℚ) (h : 0 ≤ w) : eyeWidth (mkEye w) = w := by
  simp [eyeWidth, mkEye, List.getD]
  exact ratAbs_of_nonneg w h

/-- A face gazing at the center (equal eye widths). -/
def faceCenter : Face := mkFace 1 1 (9/10)

/-- A face whose gaze ratio is 2, classified as looking left. -/
def faceLeft : Face := mkFace 2 1 (9/10)

/-- A face whose gaze ratio is 1/2, classified as looking right. -/
def faceRight : Face := mkFace 1 2 (9/10)

theorem gazeRatio_mkFace (lw rw s : ℚ) (hl : 0 ≤ lw) (hr : 0 < rw) :
    gazeRatio (mkFace lw rw s).landmarks = .finite (lw / rw) := by
  unfold gazeRatio
  rw [show (mkFace lw rw s).landmarks.leftEye = mkEye lw from rfl,
    show (mkFace lw rw s).landmarks.rightEye = mkEye rw from rfl,
    eyeWidth_mkEye lw hl, eyeWidth_mkEye rw (le_of_lt hr),
    jsDiv_of_ne_zero _ _ (ne_of_gt hr)]

theorem analyze_mkFace (lw rw s : ℚ) (hl : 0 ≤ lw) (hr : 0 < rw) :
    analyzeGazeDirection (mkFace lw rw s).landmarks =
      (if 1.15 < lw / rw then .left else if lw / rw < 0.85 then .right
       else .center) := by
  unfold analyzeGazeDirection
  rw [gazeRatio_mkFace lw rw s hl hr]
  simp

theorem analyze_faceCenter : analyzeGazeDirection faceCenter.landmarks = .center := by
  rw [show faceCenter = mkFace 1 1 (9/10) from rfl,
    analyze_mkFace 1 1 (9/10) (by norm_num) (by norm_num)]
  norm_num

theorem analyze_faceLeft : analyzeGazeDirection faceLeft.landmarks = .left := by
  rw [show faceLeft = mkFace 2 1 (9/10) from rfl,
    analyze_mkFace 2 1 (9/10) (by norm_num) (by norm_num)]
  norm_num

theorem analyze_faceRight : analyzeGazeDirection faceRight.landmarks = .right := by
  rw [show faceRight = mkFace 1 2 (9/10) from rfl,
    analyze_mkFace 1 2 (9/10) (by norm_num) (by norm_num)]
  norm_num

end VigilGuard

namespace VigilGuard

/-! ### Audio analyzer (AudioMonitor, src/unnamed/part_004) -/

/-- Sum of the bytes of the frequency-data array (`dataArray.reduce((sum,
value) => sum + value, 0)` of part_004 line 126), as an exact value.
Bytes come from a `Uint8Array`, hence `Fin 256`. -/
def byteSum (data : List (Fin 256)) : ℚ :=
  (data.map fun b => ((b.val : ℕ) : ℚ)).sum

/-- `average` of part_004 line 126: byte sum over array length, a
JavaScript division (`0 / 0 = NaN` for an empty array). -/
def audioAverage (data : List (Fin 256)) : JsNum :=
  jsDiv (byteSum data) (data.length : ℚ)

/-- `normalizedLevel` of part_004 line 127: `(average / 255) * 100`
(NaN propagates). -/
def normalizedLevel (data : List (Fin 256)) : JsNum :=
  match audioAverage data with
  | .finite q => .finite (q / 255 * 100)
  | x => x

/-- The violation emission of one `monitorAudio` iteration (part_004
lines 132-137): `suspicious_audio` exactly when `normalizedLevel > 30`
(a NaN level compares false, hence no violation). -/
def monitorAudioTick (data : List (Fin 256)) : Option ViolationKind :=
  if jsGt (normalizedLevel data) 30 then some .suspicious_audio else none

/-- The level computed for `data` is a finite value within [0, 100]. -/
def levelWithinRange (data : List (Fin 256)) : Prop :=
  ∃ q : ℚ, normalizedLevel data = .finite q ∧ 0 ≤ q ∧ q ≤ 100

/-! ### Exam session state machine (src/src/components/ExamInterface.tsx) -/

/-- A question as far as the session logic reads it: its id (the
`selectedAnswers` key) and its mark value (summed in `updateExamStats`).
The presentation-only fields (prompt, options, difficulty, subject,
category) do not enter the state machine and are omitted. -/
structure Question where
  id : String
  marks : ℕ
deriving DecidableEq

/-- Status column of the `exam_sessions` row. -/
inductive SessionStatus where
  | active
  | completed
deriving DecidableEq

/-- One entry of the violations array built by `handleViolation`
(ExamInterface.tsx lines 120-124). -/
structure ViolationRecord where
  vtype : String
  description : String
  timestamp : ℕ
deriving DecidableEq

/-- The `exam_sessions` row for the current session, as written by
`startExam`, `handleViolation` and `handleSubmitExam`. -/
structure SessionRecord where
  status : SessionStatus
  ended_at : Option ℕ
  violations : List ViolationRecord
deriving DecidableEq

/-- The React state of `ExamInterface` that the session logic touches,
plus the session's `exam_sessions` row (`db`, `none` before a session
row exists).  Timestamps are naturals (seconds). -/
structure ExamState where
  questions : List Question
  currentQuestionIndex : ℤ
  selectedAnswers : List (String × String)
  markedQuestions : List ℤ
  sessionId : String
  violations : List ViolationRecord
  examStarted : Bool
  timeRemaining : ℕ
  db : Option SessionRecord
deriving DecidableEq

/-- The initial state: index 0, no answers, no marks, empty session id,
no violations, exam not started, 3600 seconds on the clock, no session
row (ExamInterface.tsx lines 36-46). -/
def initialExamState (qs : List Question) : ExamState :=
  ⟨qs, 0, [], [], "", [], false, 3600, none⟩

/-- `startExam` (ExamInterface.tsx lines 92-117).  `result` is the outcome
of the `exam_sessions` insert: `none` when the store rejects creation (the
error branch only shows a toast), `some sid` on success, in which case the
new row has status active, no `ended_at` and an empty violations array. -/
def startExam (s : ExamState) (result : Option String) : ExamState :=
  match result with
  | none => s
  | some sid =>
      { s with sessionId := sid, examStarted := true,
               db := some ⟨.active, none, []⟩ }

/-- `handleViolation` (ExamInterface.tsx lines 119-140): append one record
to the local list and write the updated list to the session row. -/
def handleViolation (s : ExamState) (t d : String) (now : ℕ) : ExamState :=
  let upd := s.violations ++ [⟨t, d, now⟩]
  { s with violations := upd,
           db := s.db.map fun r => { r with violations := upd } }

/-- `handleSubmitExam` (ExamInterface.tsx lines 212-226): unconditionally
update the session row to status completed with `ended_at = now`, then
clear `examStarted`.  There is no guard against being called again. -/
def handleSubmitExam (s : ExamState) (now : ℕ) : ExamState :=
  { s with db := s.db.map fun r =>
             { r with status := .completed, ended_at := some now },
           examStarted := false }

/-- `handleAnswerChange` (ExamInterface.tsx lines 157-168): upsert into the
answers map (`{...prev, [questionId]: answer}`), modelled on an
association list by dropping any old binding and appending the new one. -/
def handleAnswerChange (s : ExamState) (qid ans : String) : ExamState :=
  { s with selectedAnswers :=
      (s.selectedAnswers.filter fun p => p.1 != qid) ++ [(qid, ans)] }

/-- `toggleMarkQuestion` (ExamInterface.tsx lines 170-185): flip membership
of the current index in the marked set. -/
def toggleMarkQuestion (s : ExamState) : ExamState :=
  if s.markedQuestions.contains s.currentQuestionIndex then
    { s with markedQuestions :=
        s.markedQuestions.filter fun i => i != s.currentQuestionIndex }
  else
    { s with markedQuestions := s.markedQuestions ++ [s.currentQuestionIndex] }

/-- `handleNextQuestion` (ExamInterface.tsx lines 187-192): increment only
when strictly below the last index. -/
def handleNextQuestion (s : ExamState) : ExamState :=
  if s.currentQuestionIndex < (s.questions.length : ℤ) - 1 then
    { s with currentQuestionIndex := s.currentQuestionIndex + 1 }
  else s

/-- `handlePreviousQuestion` (ExamInterface.tsx lines 194-199): decrement
only when strictly above 0. -/
def handlePreviousQuestion (s : ExamState) : ExamState :=
  if 0 < s.currentQuestionIndex then
    { s with currentQuestionIndex := s.currentQuestionIndex - 1 }
  else s

/-- `jumpToQuestion` (ExamInterface.tsx lines 201-204): set the current
index to the argument.  The source performs no clamping. -/
def jumpToQuestion (s : ExamState) (index : ℤ) : ExamState :=
  { s with currentQuestionIndex := index }

/-- One firing of the countdown interval (ExamInterface.tsx lines 59-73):
the interval exists only while `examStarted && timeRemaining > 0`; a
firing with `prev <= 1` calls `handleSubmitExam` and sets the clock to 0,
otherwise the clock decrements by one. -/
def timerTick (s : ExamState) (now : ℕ) : ExamState :=
  if s.examStarted ∧ 0 < s.timeRemaining then
    (if s.timeRemaining ≤ 1 then { handleSubmitExam s now with timeRemaining := 0 }
     else { s with timeRemaining := s.timeRemaining - 1 })
  else s

/-- The operations of the session state machine, each tagged with the data
its handler receives (timestamps for the operations that read the clock). -/
inductive Op where
  | answer (qid ans : String)
  | toggleMark
  | next
  | previous
  | jump (index : ℤ)
  | violation (t d : String) (now : ℕ)
  | submit (now : ℕ)
  | start (result : Option String)
  | tick (now : ℕ)
deriving DecidableEq

/-- Dispatch one operation to its handler. -/
def applyOp (s : ExamState) : Op → ExamState
  | .answer qid ans => handleAnswerChange s qid ans
  | .toggleMark => toggleMarkQuestion s
  | .next => handleNextQuestion s
  | .previous => handlePreviousQuestion s
  | .jump i => jumpToQuestion s i
  | .violation t d n => handleViolation s t d n
  | .submit n => handleSubmitExam s n
  | .start r => startExam s r
  | .tick n => timerTick s n

/-- Apply a sequence of operations from left to right. -/
def applyOps (s : ExamState) : List Op → ExamState
  | [] => s
  | op :: rest => applyOps (applyOp s op) rest

/-- The monitoring components run exactly when the `isActive` prop is true;
both are wired to `examStarted` (ExamInterface.tsx lines 667-670). -/
def monitorsActive (s : ExamState) : Bool := s.examStarted

/-- The countdown interval exists exactly when `examStarted` holds and time
remains (the guard of the timer effect, ExamInterface.tsx line 60). -/
def timerRunning (s : ExamState) : Bool :=
  s.examStarted && decide (0 < s.timeRemaining)

/-- Status of the session row, if one exists. -/
def dbStatus (s : ExamState) : Option SessionStatus := s.db.map (·.status)

/-- `ended_at` of the session row, if set. -/
def sessionEndedAt (s : ExamState) : Option ℕ := s.db.bind (·.ended_at)

/-- The current index lies within [0, N-1]. -/
def navInRange (s : ExamState) : Prop :=
  0 ≤ s.currentQuestionIndex ∧ s.currentQuestionIndex < (s.questions.length : ℤ)

/-- Number of timer firings in a sequence of operations. -/
def tickCount : List Op → ℕ
  | [] => 0
  | .tick _ :: rest => tickCount rest + 1
  | _ :: rest => tickCount rest

/-- Operations other than a user-initiated submit and a session (re)start:
the environment of the timer-expiry claim. -/
def timerSafeOp : Op → Bool
  | .submit _ => false
  | .start _ => false
  | _ => true

/-- Direct jumps must land within [0, N-1]; all other operations are
unconstrained. -/
def jumpInRange (n : ℤ) : Op → Bool
  | .jump i => decide (0 ≤ i ∧ i < n)
  | _ => true

/-! ### Preservation lemmas for the state machine operations -/

theorem applyOp_questions (s : ExamState) (op : Op) :
    (applyOp s op).questions = s.questions := by
  cases op with
  | answer qid ans => rfl
  | toggleMark =>
      show (toggleMarkQuestion s).questions = s.questions
      unfold toggleMarkQuestion
      split <;> rfl
  | next =>
      show (handleNextQuestion s).questions = s.questions
      unfold handleNextQuestion
      split <;> rfl
  | previous =>
      show (handlePreviousQuestion s).questions = s.questions
      unfold handlePreviousQuestion
      split <;> rfl
  | jump i => rfl
  | violation t d n => rfl
  | submit n => rfl
  | start r => cases r <;> rfl
  | tick n =>
      show (timerTick s n).questions = s.questions
      unfold timerTick
      split
      · split <;> rfl
      · rfl

theorem applyOp_violations_extends (s : ExamState) (op : Op) :
    ∃ tail, (applyOp s op).violations = s.violations ++ tail := by
  cases op with
  | answer qid ans => exact ⟨[], (List.append_nil _).symm⟩
  | toggleMark =>
      refine ⟨[], ?_⟩
      simp only [applyOp]
      unfold toggleMarkQuestion
      split <;> simp
  | next =>
      refine ⟨[], ?_⟩
      simp only [applyOp]
      unfold handleNextQuestion
      split <;> simp
  | previous =>
      refine ⟨[], ?_⟩
      simp only [applyOp]
      unfold handlePreviousQuestion
      split <;> simp
  | jump i => exact ⟨[], (List.append_nil _).symm⟩
  | violation t d n => exact ⟨[⟨t, d, n⟩], rfl⟩
  | submit n => exact ⟨[], (List.append_nil _).symm⟩
  | start r => cases r <;> exact ⟨[], (List.append_nil _).symm⟩
  | tick n =>
      refine ⟨[], ?_⟩
      simp only [applyOp]
      unfold timerTick
      split
      · split <;> simp [handleSubmitExam]
      · simp

theorem applyOp_timer_fields (s : ExamState) (op : Op)
    (hop : timerSafeOp op = true) (hnt : ∀ n, op ≠ .tick n) :
    (applyOp s op).examStarted = s.examStarted ∧
    (applyOp s op).timeRemaining = s.timeRemaining ∧
    dbStatus (applyOp s op) = dbStatus s := by
  cases op with
  | answer qid ans => exact ⟨rfl, rfl, rfl⟩
  | toggleMark =>
      simp only [applyOp]
      unfold dbStatus toggleMarkQuestion
      split <;> exact ⟨rfl, rfl, rfl⟩
  | next =>
      simp only [applyOp]
      unfold dbStatus handleNextQuestion
      split <;> exact ⟨rfl, rfl, rfl⟩
  | previous =>
      simp only [applyOp]
      unfold dbStatus handlePreviousQuestion
      split <;> exact ⟨rfl, rfl, rfl⟩
  | jump i => exact ⟨rfl, rfl, rfl⟩
  | violation t d n =>
      refine ⟨rfl, rfl, ?_⟩
      simp only [applyOp]
      cases hdb : s.db <;> simp [handleViolation, dbStatus, hdb]
  | submit n => simp [timerSafeOp] at hop
  | start r => simp [timerSafeOp] at hop
  | tick n => exact absurd rfl (hnt n)

theorem timerTick_of_not_started (s : ExamState) (n : ℕ)
    (h : s.examStarted = false) : timerTick s n = s := by
  unfold timerTick
  rw [if_neg]
  intro hc
  rw [h] at hc
  exact Bool.false_ne_true hc.1

/-- Once the session is completed and the exam flag is down, every
operation except a (re)start or a user submit leaves both facts intact. -/
theorem completed_stable (ops : List Op) (s : ExamState)
    (h1 : s.examStarted = false) (h2 : dbStatus s = some .completed)
    (hops : ops.all timerSafeOp = true) :
    (applyOps s ops).examStarted = false ∧
    dbStatus (applyOps s ops) = some .completed := by
  induction ops generalizing s with
  | nil => exact ⟨h1, h2⟩
  | cons op rest ih =>
      simp only [List.all_cons, Bool.and_eq_true] at hops
      obtain ⟨hop, hrest⟩ := hops
      by_cases htick : ∃ n, op = Op.tick n
      · obtain ⟨n, rfl⟩ := htick
        have hstep : applyOp s (Op.tick n) = s := timerTick_of_not_started s n h1
        have hrw : applyOps s (Op.tick n :: rest) = applyOps s rest := by
          show applyOps (applyOp s (Op.tick n)) rest = applyOps s rest
          rw [hstep]
        rw [hrw]
        exact ih s h1 h2 hrest
      · have hnt : ∀ n, op ≠ Op.tick n := fun n h => htick ⟨n, h⟩
        have hf := applyOp_timer_fields s op hop hnt
        exact ih (applyOp s op) (hf.1.trans h1) (hf.2.2.trans h2) hrest

/-- Core timer induction: from an active state with `D` seconds left,
running any sequence of operations that contains neither a user submit
nor a (re)start leaves the session active with `D - k` seconds after
`k < D` timer firings, and completed (exam flag down) once at least `D`
firings have occurred. -/
theorem timer_run (ops : List Op) (s : ExamState) (D : ℕ)
    (hs : s.examStarted = true) (ht : s.timeRemaining = D)
    (hst : dbStatus s = some .active) (hD : 0 < D)
    (hops : ops.all timerSafeOp = true) :
    (tickCount ops < D →
      (applyOps s ops).examStarted = true ∧
      (applyOps s ops).timeRemaining = D - tickCount ops ∧
      dbStatus (applyOps s ops) = some .active) ∧
    (D ≤ tickCount ops →
      (applyOps s ops).examStarted = false ∧
      dbStatus (applyOps s ops) = some .completed) := by
  induction ops generalizing s D with
  | nil =>
      constructor
      · intro _
        refine ⟨hs, ?_, hst⟩
        show s.timeRemaining = D - tickCount []
        rw [ht]
        simp [tickCount]
      · intro hge
        exfalso
        simp [tickCount] at hge
        omega
  | cons op rest ih =>
      simp only [List.all_cons, Bool.and_eq_true] at hops
      obtain ⟨hop, hrest⟩ := hops
      by_cases htick : ∃ n, op = Op.tick n
      · obtain ⟨n, rfl⟩ := htick
        have hcond : (s.examStarted = true) ∧ 0 < s.timeRemaining := by
          refine ⟨hs, ?_⟩
          rw [ht]
          exact hD
        have htc : tickCount (Op.tick n :: rest) = tickCount rest + 1 := by
          simp [tickCount]
        by_cases hle : s.timeRemaining ≤ 1
        · -- the firing that reaches zero: D = 1 and submit happens
          have hdbr : ∃ r : SessionRecord, s.db = some r := by
            cases hdb : s.db with
            | none => rw [dbStatus, hdb] at hst; exact absurd hst (by simp)
            | some r => exact ⟨r, rfl⟩
          obtain ⟨r, hdb⟩ := hdbr
          have hstep : applyOp s (Op.tick n) =
              { handleSubmitExam s n with timeRemaining := 0 } := by
            show timerTick s n = _
            unfold timerTick
            rw [if_pos hcond, if_pos hle]
          have hes : (applyOp s (Op.tick n)).examStarted = false := by
            rw [hstep]; rfl
          have hdbs : dbStatus (applyOp s (Op.tick n)) = some .completed := by
            rw [hstep]
            simp [dbStatus, handleSubmitExam, hdb]
          have hcs := completed_stable rest (applyOp s (Op.tick n)) hes hdbs hrest
          constructor
          · intro hlt
            rw [htc] at hlt
            have hD1 : D = 1 := by omega
            omega
          · intro _
            exact hcs
        · -- an ordinary firing: decrement and recurse with D - 1
          have hstep : applyOp s (Op.tick n) =
              { s with timeRemaining := s.timeRemaining - 1 } := by
            show timerTick s n = _
            unfold timerTick
            rw [if_pos hcond, if_neg hle]
          have hs2 : (applyOp s (Op.tick n)).examStarted = true := by
            rw [hstep]; exact hs
          have ht2 : (applyOp s (Op.tick n)).timeRemaining = D - 1 := by
            rw [hstep]
            show s.timeRemaining - 1 = D - 1
            omega
          have hst2 : dbStatus (applyOp s (Op.tick n)) = some .active := by
            rw [hstep]
            exact hst
          have hD2 : 0 < D - 1 := by omega
          have hgoal := ih (applyOp s (Op.tick n)) (D - 1) hs2 ht2 hst2 hD2 hrest
          have hrw : applyOps s (Op.tick n :: rest) =
              applyOps (applyOp s (Op.tick n)) rest := rfl
          constructor
          · intro hlt
            rw [htc] at hlt
            have h1 := hgoal.1 (by omega)
            refine ⟨by rw [hrw]; exact h1.1, ?_, by rw [hrw]; exact h1.2.2⟩
            rw [htc, hrw, h1.2.1]
            omega
          · intro hge
            rw [htc] at hge
            rw [hrw]
            exact hgoal.2 (by omega)
      · have hnt : ∀ n, op ≠ Op.tick n := fun n h => htick ⟨n, h⟩
        have hf := applyOp_timer_fields s op hop hnt
        have htc : tickCount (op :: rest) = tickCount rest := by
          cases op <;> first
            | exact absurd rfl (hnt _)
            | simp [tickCount]
        rw [htc]
        exact ih (applyOp s op) D (hf.1.trans hs) (hf.2.1.trans ht)
          (hf.2.2.trans hst) hD hrest

/-- One operation whose direct jumps stay within range keeps the current
index within range. -/
theorem navInRange_applyOp (s : ExamState) (op : Op) (h : navInRange s)
    (hop : jumpInRange (s.questions.length : ℤ) op = true) :
    navInRange (applyOp s op) := by
  obtain ⟨h0, h1⟩ := h
  cases op with
  | answer qid ans => exact ⟨h0, h1⟩
  | toggleMark =>
      simp only [applyOp]
      unfold navInRange toggleMarkQuestion
      split <;> exact ⟨h0, h1⟩
  | next =>
      simp only [applyOp]
      unfold navInRange handleNextQuestion
      split
      · rename_i hc
        constructor
        · show (0:ℤ) ≤ s.currentQuestionIndex + 1
          omega
        · show s.currentQuestionIndex + 1 < (s.questions.length : ℤ)
          omega
      · exact ⟨h0, h1⟩
  | previous =>
      simp only [applyOp]
      unfold navInRange handlePreviousQuestion
      split
      · rename_i hc
        constructor
        · show (0:ℤ) ≤ s.currentQuestionIndex - 1
          omega
        · show s.currentQuestionIndex - 1 < (s.questions.length : ℤ)
          omega
      · exact ⟨h0, h1⟩
  | jump i =>
      have hi := of_decide_eq_true hop
      exact ⟨hi.1, hi.2⟩
  | violation t d n => exact ⟨h0, h1⟩
  | submit n => exact ⟨h0, h1⟩
  | start r => cases r <;> exact ⟨h0, h1⟩
  | tick n =>
      simp only [applyOp]
      unfold navInRange timerTick
      split
      · split <;> exact ⟨h0, h1⟩
      · exact ⟨h0, h1⟩

/-! ### Concrete detection ticks and sequences -/

theorem tick_empty (st : FaceDetectionState) :
    detectFacesTick st [] =
      ({ st with faceDetected := false, confidence := 0, gazeDirection := none },
       if st.faceDetected then [.no_face] else []) := rfl

theorem tick_single (st : FaceDetectionState) (d : Face) :
    detectFacesTick st [d] =
      (⟨true, false, decide (analyzeGazeDirection d.landmarks ≠ .center), d.score,
         some (analyzeGazeDirection d.landmarks)⟩,
       if decide (analyzeGazeDirection d.landmarks ≠ .center) then
         [.looking_away (analyzeGazeDirection d.landmarks)] else []) := rfl

theorem tick_faceCenter (st : FaceDetectionState) :
    detectFacesTick st [faceCenter] =
      (⟨true, false, false, 9/10, some .center⟩, []) := by
  rw [tick_single, analyze_faceCenter]
  simp [faceCenter, mkFace]

theorem tick_faceLeft (st : FaceDetectionState) :
    detectFacesTick st [faceLeft] =
      (⟨true, false, true, 9/10, some .left⟩, [.looking_away .left]) := by
  rw [tick_single, analyze_faceLeft]
  simp [faceLeft, mkFace]

theorem tick_faceRight (st : FaceDetectionState) :
    detectFacesTick st [faceRight] =
      (⟨true, false, true, 9/10, some .right⟩, [.looking_away .right]) := by
  rw [tick_single, analyze_faceRight]
  simp [faceRight, mkFace]

/-- The observation sequence realising the classification sequence
[none, looking_away(left), looking_away(left), none, looking_away(right)]:
a single centered face, the same left-gazing face twice, the centered
face again, then a right-gazing face. -/
def seqLeftLeftRight : List (List Face) :=
  [[faceCenter], [faceLeft], [faceLeft], [faceCenter], [faceRight]]

theorem run_seqLeftLeftRight :
    (runDetection initDetectionState seqLeftLeftRight).2 =
      [.looking_away .left, .looking_away .left, .looking_away .right] := by
  unfold seqLeftLeftRight
  rw [runDetection, tick_faceCenter]
  rw [runDetection, tick_faceLeft]
  rw [runDetection, tick_faceLeft]
  rw [runDetection, tick_faceCenter]
  rw [runDetection, tick_faceRight]
  rw [runDetection]
  rfl

/-- The observation sequence of the no-face scenario: zero faces for three
ticks, one (centered) face for one tick, zero faces for two ticks. -/
def seqNoFace : List (List Face) :=
  [[], [], [], [faceCenter], [], []]

theorem run_seqNoFace :
    (runDetection initDetectionState seqNoFace).2 = [.no_face] := by
  unfold seqNoFace
  rw [runDetection, tick_empty]
  rw [runDetection, tick_empty]
  rw [runDetection, tick_empty]
  rw [runDetection, tick_faceCenter]
  rw [runDetection, tick_empty]
  rw [runDetection, tick_empty]
  rw [runDetection]
  rfl

/-! ### Concrete exam states -/

/-- A two-question bank. -/
def demoQuestions : List Question := [⟨"q1", 1⟩, ⟨"q2", 2⟩]

/-- A session successfully started on the two-question bank. -/
def startedState : ExamState :=
  startExam (initialExamState demoQuestions) (some "session-1")

/-- The started session after a submit at time 5. -/
def submittedOnce : ExamState := handleSubmitExam startedState 5

/-- The same session after a second submit at time 9. -/
def submittedTwice : ExamState := handleSubmitExam submittedOnce 9

/-- The started session with two seconds left on the clock. -/
def timerDemoState : ExamState := { startedState with timeRemaining := 2 }

/-! ### Audio helper lemmas -/

theorem byteSum_nonneg (data : List (Fin 256)) : 0 ≤ byteSum data := by
  unfold byteSum
  induction data with
  | nil => simp
  | cons b rest ih =>
      simp only [List.map_cons, List.sum_cons]
      have hb : (0:ℚ) ≤ ((b.val : ℕ) : ℚ) := by positivity
      linarith

theorem byteSum_le (data : List (Fin 256)) :
    byteSum data ≤ 255 * (data.length : ℚ) := by
  unfold byteSum
  induction data with
  | nil => simp
  | cons b rest ih =>
      simp only [List.map_cons, List.sum_cons, List.length_cons]
      have hb : ((b.val : ℕ) : ℚ) ≤ 255 := by
        have := b.isLt
        have hcast : ((b.val : ℕ) : ℚ) ≤ ((255 : ℕ) : ℚ) := by
          exact_mod_cast Nat.le_of_lt_succ this
        simpa using hcast
      push_cast
      linarith

theorem classifyVision_single (d : Face) :
    classifyVision [d] =
      (if analyzeGazeDirection d.landmarks = .center then none
       else some (.looking_away (analyzeGazeDirection d.landmarks))) := rfl

theorem analyzeGazeDirection_of_finite (lm : FaceLandmarks68) (q : ℚ)
    (h : gazeRatio lm = .finite q) :
    analyzeGazeDirection lm =
      (if 1.15 < q then .left else if q < 0.85 then .right else .center) := by
  unfold analyzeGazeDirection
  rw [h]
  simp

end VigilGuard

namespace VigilGuard

/-! ### The claims -/

/-- Claim C3.  The spec asserts that for the classification sequence
[none, looking_away(left), looking_away(left), none, looking_away(right)]
the debouncer emits exactly 2 violations.  The source debounces only the
no-face condition: a `looking_away` violation is emitted on every tick
whose single face gazes off-center, so this sequence emits 3 violations,
not 2. -/
theorem looking_away_sequence_not_two :
    ¬ ((runDetection initDetectionState seqLeftLeftRight).2.length = 2) := by
  rw [run_seqLeftLeftRight]
  simp

/-- Claim C3, amended.  For the observation sequence realising
[none, looking_away(left), looking_away(left), none, looking_away(right)]
the source emits exactly 3 violations — one `looking_away` per off-center
tick (left, left, right); repeated identical non-none classifications are
not suppressed. -/
theorem looking_away_sequence_three :
    (runDetection initDetectionState seqLeftLeftRight).2 =
      [.looking_away .left, .looking_away .left, .looking_away .right] ∧
    (runDetection initDetectionState seqLeftLeftRight).2.length = 3 := by
  refine ⟨run_seqLeftLeftRight, ?_⟩
  rw [run_seqLeftLeftRight]
  rfl

/-- Claim C4.  The spec asserts that zero faces for 3 ticks, then 1 face
for 1 tick, then zero faces for 2 ticks produces exactly 2 `no_face`
violations.  The initial detection state has `faceDetected = false`, and
the source emits `no_face` only on a detected-to-absent transition, so
the first zero-face run emits nothing and the whole sequence emits only
1 `no_face` violation. -/
theorem no_face_sequence_not_two :
    ¬ ((runDetection initDetectionState seqNoFace).2.count .no_face = 2) := by
  rw [run_seqNoFace]
  decide

/-- Claim C4, amended.  Starting from the initial state (no face seen
yet), the sequence (zero faces ×3, one face ×1, zero faces ×2) produces
exactly 1 `no_face` violation: the initial zero-face ticks emit nothing
because no face had been detected before, and only the re-entry into the
zero-face condition after the face appeared emits. -/
theorem no_face_sequence_one :
    (runDetection initDetectionState seqNoFace).2 = [.no_face] ∧
    (runDetection initDetectionState seqNoFace).2.count .no_face = 1 := by
  refine ⟨run_seqNoFace, ?_⟩
  rw [run_seqNoFace]
  decide

/-- Claim C5.  The vision classification of one tick follows the source
order with first match winning: zero faces classifies as `no_face`; more
than one face as `multiple_faces`; for exactly one face with a finite
gaze ratio (nonzero right-eye width), a ratio above 1.15 gives
`looking_away` left, below 0.85 gives `looking_away` right, and a ratio
within [0.85, 1.15] gives no violation with direction center. -/
theorem vision_classifier_rules (detections : List Face) :
    (detections.length = 0 → classifyVision detections = some .no_face) ∧
    (1 < detections.length → classifyVision detections = some .multiple_faces) ∧
    (∀ d, detections = [d] →
      eyeWidth d.landmarks.rightEye ≠ 0 →
      ((1.15 < eyeWidth d.landmarks.leftEye / eyeWidth d.landmarks.rightEye →
          classifyVision detections = some (.looking_away .left)) ∧
       (eyeWidth d.landmarks.leftEye / eyeWidth d.landmarks.rightEye < 0.85 →
          classifyVision detections = some (.looking_away .right)) ∧
       (0.85 ≤ eyeWidth d.landmarks.leftEye / eyeWidth d.landmarks.rightEye →
        eyeWidth d.landmarks.leftEye / eyeWidth d.landmarks.rightEye ≤ 1.15 →
          classifyVision detections = none ∧
          analyzeGazeDirection d.landmarks = .center))) := by
  cases detections with
  | nil =>
      refine ⟨fun _ => rfl, ?_, ?_⟩
      · intro h
        simp at h
      · intro d hd
        simp at hd
  | cons d1 rest =>
      cases rest with
      | nil =>
          refine ⟨?_, ?_, ?_⟩
          · intro h
            simp at h
          · intro h
            simp at h
          · intro d hd hne
            have hd1 : d1 = d := by
              injection hd with h1 _
            subst hd1
            have hq : gazeRatio d1.landmarks =
                .finite (eyeWidth d1.landmarks.leftEye / eyeWidth d1.landmarks.rightEye) :=
              jsDiv_of_ne_zero _ _ hne
            have hana := analyzeGazeDirection_of_finite d1.landmarks _ hq
            refine ⟨?_, ?_, ?_⟩
            · intro hgt
              rw [if_pos hgt] at hana
              rw [classifyVision_single, hana]
              simp
            · intro hlt
              have hnotgt : ¬ (1.15 < eyeWidth d1.landmarks.leftEye / eyeWidth d1.landmarks.rightEye) := by
                intro h
                norm_num at hlt h
                linarith
              rw [if_neg hnotgt, if_pos hlt] at hana
              rw [classifyVision_single, hana]
              simp
            · intro hge hle
              have hnotgt : ¬ (1.15 < eyeWidth d1.landmarks.leftEye / eyeWidth d1.landmarks.rightEye) :=
                not_lt.mpr hle
              have hnotlt : ¬ (eyeWidth d1.landmarks.leftEye / eyeWidth d1.landmarks.rightEye < 0.85) :=
                not_lt.mpr hge
              rw [if_neg hnotgt, if_neg hnotlt] at hana
              rw [classifyVision_single, hana]
              exact ⟨by simp, rfl⟩
      | cons d2 rest2 =>
          refine ⟨?_, fun _ => rfl, ?_⟩
          · intro h
            simp at h
          · intro d hd
            simp at hd

/-- Claim C5, witness: the three rule families at concrete inputs — a
single left-gazing face, an empty detection list, and a two-face list. -/
theorem vision_classifier_rules_witness :
    classifyVision [faceLeft] = some (.looking_away .left) ∧
    classifyVision [] = some .no_face ∧
    classifyVision [faceCenter, faceLeft] = some .multiple_faces := by
  have hwl : eyeWidth faceLeft.landmarks.leftEye = 2 := by
    rw [show faceLeft.landmarks.leftEye = mkEye 2 from rfl]
    exact eyeWidth_mkEye 2 (by norm_num)
  have hwr : eyeWidth faceLeft.landmarks.rightEye = 1 := by
    rw [show faceLeft.landmarks.rightEye = mkEye 1 from rfl]
    exact eyeWidth_mkEye 1 (by norm_num)
  refine ⟨?_, (vision_classifier_rules []).1 rfl,
    (vision_classifier_rules [faceCenter, faceLeft]).2.1 (by simp)⟩
  refine ((vision_classifier_rules [faceLeft]).2.2 faceLeft rfl ?_).1 ?_
  · rw [hwr]
    norm_num
  · rw [hwl, hwr]
    norm_num

/-- Claim C10.  `analyzeGazeDirection` is total: every landmark input is
classified as exactly one of left, center, right; in particular when the
right-eye width is zero the JavaScript quotient is Infinity (left-eye
width positive, classified left) or NaN (both widths zero, classified
center), and no error is raised. -/
theorem analyze_gaze_total (lm : FaceLandmarks68) :
    (analyzeGazeDirection lm = .left ∨ analyzeGazeDirection lm = .center ∨
     analyzeGazeDirection lm = .right) ∧
    (eyeWidth lm.rightEye = 0 →
      ((eyeWidth lm.leftEye = 0 → analyzeGazeDirection lm = .center) ∧
       (eyeWidth lm.leftEye ≠ 0 → analyzeGazeDirection lm = .left))) := by
  constructor
  · unfold analyzeGazeDirection
    split
    · exact Or.inl rfl
    · split
      · exact Or.inr (Or.inr rfl)
      · exact Or.inr (Or.inl rfl)
  · intro h0
    constructor
    · intro hl0
      have hq : gazeRatio lm = .nan := by
        unfold gazeRatio
        rw [h0, hl0]
        exact jsDiv_zero_zero
      unfold analyzeGazeDirection
      rw [hq]
      simp
    · intro hlne
      have hlpos : 0 < eyeWidth lm.leftEye :=
        lt_of_le_of_ne (ratAbs_nonneg _) (Ne.symm hlne)
      have hq : gazeRatio lm = .posInf := by
        unfold gazeRatio
        rw [h0]
        exact jsDiv_pos_zero _ hlpos
      unfold analyzeGazeDirection
      rw [hq]
      simp

/-- Degenerate landmarks: a positive-width left eye and a zero-width
right eye, so the width quotient is the JavaScript Infinity. -/
def degenerateLandmarks : FaceLandmarks68 := ⟨mkEye 1, mkEye 0⟩

/-- Claim C10, witness: at the degenerate landmarks with zero right-eye
width the analysis still returns a direction (left). -/
theorem analyze_gaze_total_witness :
    eyeWidth degenerateLandmarks.rightEye = 0 ∧
    analyzeGazeDirection degenerateLandmarks = .left := by
  have h0 : eyeWidth degenerateLandmarks.rightEye = 0 := by
    rw [show degenerateLandmarks.rightEye = mkEye 0 from rfl]
    exact eyeWidth_mkEye 0 le_rfl
  have h1 : eyeWidth degenerateLandmarks.leftEye ≠ 0 := by
    rw [show degenerateLandmarks.leftEye = mkEye 1 from rfl]
    rw [eyeWidth_mkEye 1 (by norm_num)]
    norm_num
  exact ⟨h0, ((analyze_gaze_total degenerateLandmarks).2 h0).2 h1⟩

/-- Claim C6.  The spec quantifies over every input byte array, but on the
empty array the source computes `0 / 0 = NaN` as the average, the level
stays NaN (not a value in [0, 100]), and no violation is emitted. -/
theorem audio_empty_level_nan :
    normalizedLevel [] = .nan ∧ ¬ levelWithinRange [] ∧
    monitorAudioTick [] = none := by
  have h : normalizedLevel [] = .nan := by
    have ha : audioAverage [] = .nan := by
      unfold audioAverage byteSum
      simp [jsDiv]
    unfold normalizedLevel
    rw [ha]
  refine ⟨h, ?_, ?_⟩
  · rintro ⟨q, hq, -, -⟩
    rw [h] at hq
    exact JsNum.noConfusion hq
  · unfold monitorAudioTick
    rw [h]
    simp

/-- Claim C6, amended.  For every nonempty byte array the normalized level
is a finite value within [0, 100], and `suspicious_audio` is emitted
exactly when the level is strictly greater than 30 (otherwise no
violation is emitted). -/
theorem audio_level_range_and_threshold (data : List (Fin 256))
    (h : data ≠ []) :
    ∃ q : ℚ, normalizedLevel data = .finite q ∧ 0 ≤ q ∧ q ≤ 100 ∧
      (monitorAudioTick data = some .suspicious_audio ↔ 30 < q) ∧
      (monitorAudioTick data = none ↔ q ≤ 30) := by
  have hlen : 0 < data.length := List.length_pos.mpr h
  have hlenq : (0:ℚ) < (data.length : ℚ) := by exact_mod_cast hlen
  have hne : (data.length : ℚ) ≠ 0 := ne_of_gt hlenq
  set q : ℚ := byteSum data / (data.length : ℚ) / 255 * 100 with hqdef
  have hnl : normalizedLevel data = .finite q := by
    have ha : audioAverage data = .finite (byteSum data / (data.length : ℚ)) :=
      jsDiv_of_ne_zero _ _ hne
    unfold normalizedLevel
    rw [ha]
  have havg0 : 0 ≤ byteSum data / (data.length : ℚ) :=
    div_nonneg (byteSum_nonneg data) (le_of_lt hlenq)
  have havg255 : byteSum data / (data.length : ℚ) ≤ 255 :=
    (div_le_iff₀ hlenq).mpr (byteSum_le data)
  have hq0 : 0 ≤ q := by
    rw [hqdef]
    positivity
  have hq100 : q ≤ 100 := by
    rw [hqdef]
    rw [div_mul_eq_mul_div, div_le_iff₀ (by norm_num : (0:ℚ) < 255)]
    linarith
  have hmt : monitorAudioTick data =
      (if 30 < q then some ViolationKind.suspicious_audio else none) := by
    unfold monitorAudioTick
    rw [hnl]
    simp only [jsGt_finite]
    by_cases h30 : 30 < q
    · rw [if_pos (by simpa using h30), if_pos h30]
    · rw [if_neg (by simpa using h30), if_neg h30]
  refine ⟨q, hnl, hq0, hq100, ?_, ?_⟩
  · rw [hmt]
    by_cases h30 : 30 < q
    · rw [if_pos h30]
      simp [h30]
    · rw [if_neg h30]
      simp [h30]
  · rw [hmt]
    by_cases h30 : 30 < q
    · rw [if_pos h30]
      constructor
      · intro hc
        exact absurd hc (by simp)
      · intro hle
        linarith
    · rw [if_neg h30]
      simp [not_lt.mp h30]

/-- Claim C6, witness: a one-byte array of value 255 has level 100 and is
flagged suspicious. -/
theorem audio_level_range_and_threshold_witness :
    ∃ q : ℚ, normalizedLevel [(255 : Fin 256)] = .finite q ∧ 0 ≤ q ∧ q ≤ 100 ∧
      (monitorAudioTick [(255 : Fin 256)] = some .suspicious_audio ↔ 30 < q) ∧
      (monitorAudioTick [(255 : Fin 256)] = none ↔ q ≤ 30) :=
  audio_level_range_and_threshold [(255 : Fin 256)] (by simp)

/-- Claim C1.  The spec requires `submit()` to be idempotent: a second
call must not re-apply the transition nor overwrite `ended_at`.  The
source's `handleSubmitExam` has no terminal-state guard: calling it a
second time at a later clock re-issues the update and overwrites
`ended_at` (here 5, then 9), so the session ends up with a second
`ended_at` value. -/
theorem submit_twice_overwrites_ended_at :
    sessionEndedAt submittedOnce = some 5 ∧
    dbStatus submittedOnce = some .completed ∧
    sessionEndedAt submittedTwice = some 9 ∧
    sessionEndedAt submittedTwice ≠ sessionEndedAt submittedOnce := by
  refine ⟨rfl, rfl, rfl, ?_⟩
  intro h
  have : (9 : ℕ) = 5 := Option.some.inj h
  omega

/-- Claim C2.  The spec says a direct jump clamps its argument to
[0, N-1].  `jumpToQuestion` performs no clamping: jumping to -1 from a
valid state of the two-question session leaves the current index at -1,
outside [0, N-1]. -/
theorem jump_escapes_range :
    (jumpToQuestion startedState (-1)).currentQuestionIndex = -1 ∧
    ¬ navInRange (jumpToQuestion startedState (-1)) := by
  refine ⟨rfl, ?_⟩
  intro h
  have h0 : (0:ℤ) ≤ -1 := h.1
  omega

/-- Claim C2, amended.  Relative next/previous are guarded no-ops at the
boundaries, and for every operation sequence whose direct jumps land
within [0, N-1] (as every jump the UI issues does), the current index
stays within [0, N-1]; direct jumps themselves are not clamped by the
source. -/
theorem navigation_stays_in_range (s : ExamState) (ops : List Op)
    (h : navInRange s)
    (hops : ops.all (jumpInRange (s.questions.length : ℤ)) = true) :
    navInRange (applyOps s ops) ∧
    (s.currentQuestionIndex = (s.questions.length : ℤ) - 1 →
      handleNextQuestion s = s) ∧
    (s.currentQuestionIndex = 0 → handlePreviousQuestion s = s) := by
  refine ⟨?_, ?_, ?_⟩
  · induction ops generalizing s with
    | nil => exact h
    | cons op rest ih =>
        simp only [List.all_cons, Bool.and_eq_true] at hops
        obtain ⟨hop, hrest⟩ := hops
        have hstep := navInRange_applyOp s op h hop
        have hq := applyOp_questions s op
        exact ih (applyOp s op) hstep (by rw [hq]; exact hrest)
  · intro hend
    unfold handleNextQuestion
    rw [if_neg]
    omega
  · intro h0
    unfold handlePreviousQuestion
    rw [if_neg]
    omega

/-- Claim C2, amended, witness: from the started two-question session,
next, an in-range jump and previous keep the index in range; the
boundary no-ops hold at index 0. -/
theorem navigation_stays_in_range_witness :
    navInRange (applyOps startedState [Op.next, Op.jump 0, Op.previous]) ∧
    (startedState.currentQuestionIndex =
      ((startedState.questions.length : ℤ) - 1) →
      handleNextQuestion startedState = startedState) ∧
    (startedState.currentQuestionIndex = 0 →
      handlePreviousQuestion startedState = startedState) :=
  navigation_stays_in_range startedState [Op.next, Op.jump 0, Op.previous]
    ⟨by decide, by decide⟩ (by decide)

/-- Claim C7.  When the backing store rejects session creation,
`startExam` takes only the error branch (a toast): from a not-started
state the state machine stays not-started, no session id or session row
is recorded, and neither the monitors nor the timer are running. -/
theorem start_failure_atomic (s : ExamState)
    (h1 : s.examStarted = false) (h2 : s.sessionId = "") (h3 : s.db = none) :
    startExam s none = s ∧
    (startExam s none).examStarted = false ∧
    (startExam s none).sessionId = "" ∧
    (startExam s none).db = none ∧
    monitorsActive (startExam s none) = false ∧
    timerRunning (startExam s none) = false := by
  have he : startExam s none = s := rfl
  rw [he]
  refine ⟨rfl, h1, h2, h3, h1, ?_⟩
  unfold timerRunning
  rw [h1]
  rfl

/-- Claim C7, witness: the failed start at the initial state. -/
theorem start_failure_atomic_witness :
    startExam (initialExamState demoQuestions) none =
      initialExamState demoQuestions ∧
    (startExam (initialExamState demoQuestions) none).examStarted = false ∧
    (startExam (initialExamState demoQuestions) none).sessionId = "" ∧
    (startExam (initialExamState demoQuestions) none).db = none ∧
    monitorsActive (startExam (initialExamState demoQuestions) none) = false ∧
    timerRunning (startExam (initialExamState demoQuestions) none) = false :=
  start_failure_atomic (initialExamState demoQuestions) rfl rfl rfl

/-- Claim C8.  The violation log is append-only: `handleViolation`
extends the log by exactly its one new record, and every operation of the
state machine leaves the existing log as a prefix of the new one (in
particular the length never decreases and no appended record is edited
or removed). -/
theorem violation_log_append_only :
    (∀ (s : ExamState) (t d : String) (n : ℕ),
      (handleViolation s t d n).violations = s.violations ++ [⟨t, d, n⟩]) ∧
    (∀ (s : ExamState) (op : Op),
      ∃ tail, (applyOp s op).violations = s.violations ++ tail) ∧
    (∀ (s : ExamState) (op : Op),
      s.violations.length ≤ (applyOp s op).violations.length) := by
  refine ⟨fun s t d n => rfl, applyOp_violations_extends, ?_⟩
  intro s op
  obtain ⟨tail, htail⟩ := applyOp_violations_extends s op
  rw [htail]
  simp

/-- Claim C9.  For a session started with duration `D` seconds (the
source initialises the clock to the default 3600), the clock decrements
once per timer firing while the session is active, the session is still
active with `D - k` seconds left after `k < D` firings (submit is never
invoked before `D` seconds have elapsed), and once `D` firings have
occurred — one per second of wall clock — the timer has invoked
`submit()`: the session row is completed and the exam flag is down, for
every interleaving with non-submit user operations. -/
theorem timer_auto_submits_at_duration (ops : List Op) (s : ExamState)
    (D : ℕ) (hs : s.examStarted = true) (ht : s.timeRemaining = D)
    (hst : dbStatus s = some .active) (hD : 0 < D)
    (hops : ops.all timerSafeOp = true) :
    (tickCount ops < D →
      (applyOps s ops).examStarted = true ∧
      (applyOps s ops).timeRemaining = D - tickCount ops ∧
      dbStatus (applyOps s ops) = some .active) ∧
    (D ≤ tickCount ops →
      (applyOps s ops).examStarted = false ∧
      dbStatus (applyOps s ops) = some .completed) ∧
    (initialExamState s.questions).timeRemaining = 3600 := by
  have h := timer_run ops s D hs ht hst hD hops
  exact ⟨h.1, h.2, rfl⟩

/-- Claim C9, witness: from the started session with 2 seconds left,
interleaving an answer between two timer firings completes the session
exactly at the second firing. -/
theorem timer_auto_submits_at_duration_witness :
    (applyOps timerDemoState
      [Op.tick 11, Op.answer "q1" "a", Op.tick 12]).examStarted = false ∧
    dbStatus (applyOps timerDemoState
      [Op.tick 11, Op.answer "q1" "a", Op.tick 12]) = some .completed :=
  (timer_auto_submits_at_duration
    [Op.tick 11, Op.answer "q1" "a", Op.tick 12] timerDemoState 2
    rfl rfl rfl (by norm_num) (by decide)).2.1 (by decide)

end VigilGuard

